import Mathlib

/-
  Verification of the LemonNES PPU (ppu.js) and APU (apu.js, the full
  version with DMC DMA and IRQs, which the design notes declare canonical).

  Modelling conventions (shallow embedding of the JavaScript source):
  * JS numbers used as integer counters/addresses are modelled as Nat where
    the code keeps them nonnegative by construction, and as Int where a
    claim is about staying nonnegative or where the code can go negative.
  * JS 32-bit bitwise operators (`&`, `|`, `<<`, `>>`) convert their
    operands with ToInt32; the helpers below implement that conversion
    exactly.  Plain `++`/`--`/`+`/`-` on JS numbers are exact integer
    operations in the ranges exercised here and are modelled exactly.
  * The fractional cycle accumulators (`seqTime`, `sampleTimer`) and the
    mixer arithmetic are JS doubles in the source; they are modelled as
    exact rationals.
  * Typed-array accesses (`Uint8Array`) drop out-of-range writes and give
    `undefined` for out-of-range reads; reads are therefore modelled with
    Option.
  * External collaborators (canvas context, WebAudio sink, cpuStall cycle
    accounting, onIRQ level callback) carry no modelled state; the DMC's
    `cpuRead` callback is passed in as an explicit function parameter.
-/

/-! ### JavaScript 32-bit integer conversions -/

def toUint32 (x : ℤ) : ℤ := x % 4294967296

def toInt32 (x : ℤ) : ℤ :=
  let u := toUint32 x
  if u < 2147483648 then u else u - 4294967296

def jsOr32 (a b : ℤ) : ℤ :=
  toInt32 (Int.ofNat (Nat.lor (toUint32 a).toNat (toUint32 b).toNat))

def jsAnd32 (a b : ℤ) : ℤ :=
  toInt32 (Int.ofNat (Nat.land (toUint32 a).toNat (toUint32 b).toNat))

def jsShl32 (a : ℤ) (n : ℕ) : ℤ := toInt32 (toInt32 a * 2 ^ (n % 32))

def jsShr32 (a : ℤ) (n : ℕ) : ℤ := Int.fdiv (toInt32 a) (2 ^ (n % 32))

/-! ### PPU (ppu.js)

The modelled state carries every field of the PPU class that the register
interface and the timing step touch.  The frame buffer and the canvas
context receive pixel data from `renderFrame` but are never read back by
any modelled operation, so they are omitted; `renderFrame` (called when
the scanline reaches 241) only writes those sinks and leaves every
modelled field unchanged. -/

structure PPU where
  ctrl : ℕ
  mask : ℕ
  status : ℕ
  oamAddr : ℤ
  /-- `scrollX` is a JS number or `null`; `none` models `null`.  The code
  uses `scrollX === null` as the $2005 write toggle. -/
  scrollX : Option ℕ
  scrollY : ℕ
  addr : ℤ
  data : ℕ
  vram : ℕ → ℕ
  oam : ℕ → ℕ
  cycle : ℕ
  scanline : ℕ

def PPU.init : PPU :=
  { ctrl := 0, mask := 0, status := 0, oamAddr := 0, scrollX := some 0,
    scrollY := 0, addr := 0, data := 0, vram := fun _ => 0, oam := fun _ => 0,
    cycle := 0, scanline := 0 }

/-- `this.vram[i]` on the `Uint8Array(0x4000)`: `undefined` (= `none`)
outside the range. -/
def PPU.vramRead (p : PPU) (i : ℤ) : Option ℕ :=
  if 0 ≤ i ∧ i < 0x4000 then some (p.vram i.toNat) else none

/-- `this.vram[i] = v`: out-of-range writes on a typed array are dropped. -/
def PPU.vramWrite (p : PPU) (i : ℤ) (v : ℕ) : PPU :=
  if 0 ≤ i ∧ i < 0x4000 then
    { p with vram := fun j => if j = i.toNat then v else p.vram j }
  else p

def PPU.oamWrite (p : PPU) (i : ℤ) (v : ℕ) : PPU :=
  if 0 ≤ i ∧ i < 256 then
    { p with oam := fun j => if j = i.toNat then v else p.oam j }
  else p

/-- `PPU.readRegister`: returns the value put on the bus (`none` for a JS
`undefined`) together with the updated PPU. -/
def PPU.readRegister (p : PPU) (a : ℕ) : Option ℕ × PPU :=
  if a = 0x2002 then
    (some p.status, { p with status := p.status &&& 0x7F })
  else if a = 0x2007 then
    (p.vramRead p.addr, { p with addr := p.addr + 1 })
  else (some 0, p)

def PPU.writeRegister (p : PPU) (a : ℕ) (v : ℕ) : PPU :=
  if a = 0x2000 then { p with ctrl := v }
  else if a = 0x2001 then { p with mask := v }
  else if a = 0x2003 then { p with oamAddr := v }
  else if a = 0x2004 then
    { p.oamWrite p.oamAddr v with oamAddr := p.oamAddr + 1 }
  else if a = 0x2005 then
    match p.scrollX with
    | none => { p with scrollX := some v }
    | some _ => { p with scrollY := v, scrollX := none }
  else if a = 0x2006 then
    { p with addr := jsOr32 (jsShl32 p.addr 8) (Int.ofNat v) }
  else if a = 0x2007 then
    { p.vramWrite p.addr v with addr := p.addr + 1 }
  else p

/-- `PPU.step`: the scanline/cycle timing state machine.  `renderFrame`
(triggered on entering scanline 241) writes only the frame buffer and the
canvas, which are outside the modelled state. -/
def PPU.step (p : PPU) : PPU :=
  let p := { p with cycle := p.cycle + 1 }
  if p.cycle > 340 then
    let p := { p with cycle := 0, scanline := p.scanline + 1 }
    let p := if p.scanline = 241 then { p with status := p.status ||| 0x80 } else p
    if p.scanline ≥ 262 then { p with scanline := 0, status := p.status &&& 0x7F }
    else p
  else p

/-! ### APU constants (apu.js) -/

def NTSC_CPU_HZ : ℚ := 1789773

def DMC_RATES : List ℤ :=
  [428, 380, 340, 320, 286, 254, 226, 214, 190, 160, 142, 128, 106, 85, 72, 54]

def NOISE_PERIODS : List ℤ :=
  [4, 8, 16, 32, 64, 96, 128, 160, 202, 254, 380, 508, 762, 1016, 2034, 4068]

def LENGTH_TABLE : List ℤ :=
  [10, 254, 20, 2, 40, 4, 80, 6, 160, 8, 60, 10, 14, 12, 26, 14,
   12, 16, 24, 18, 48, 20, 96, 22, 192, 24, 72, 26, 16, 28, 32, 30]

def clamp01 (x : ℚ) : ℚ := if x < 0 then 0 else if 1 < x then 1 else x

/-! ### Envelope unit -/

structure Envelope where
  loop : Bool
  constantVolume : Bool
  volume : ℕ
  start : Bool
  decay : ℕ
  divider : ℕ

def Envelope.init : Envelope :=
  { loop := false, constantVolume := false, volume := 0, start := false,
    decay := 0, divider := 0 }

def Envelope.write (e : Envelope) (n : ℕ) : Envelope :=
  { e with loop := n &&& 0x20 != 0, constantVolume := n &&& 0x10 != 0,
           volume := n &&& 0x0F }

def Envelope.restart (e : Envelope) : Envelope := { e with start := true }

def Envelope.quarter (e : Envelope) : Envelope :=
  if e.start then { e with start := false, decay := 15, divider := e.volume }
  else if e.divider = 0 then
    { e with divider := e.volume,
             decay := if e.decay > 0 then e.decay - 1
                      else if e.loop then 15 else e.decay }
  else { e with divider := e.divider - 1 }

def Envelope.out (e : Envelope) : ℕ :=
  if e.constantVolume then e.volume else e.decay

/-! ### Length counter

`value` is an ordinary JS number; it is modelled as an Int so that the
claim that it never becomes negative is a real statement about the
guarded decrement, not an artefact of the embedding type. -/

structure LengthCounter where
  value : ℤ
  halt : Bool

def LengthCounter.init : LengthCounter := { value := 0, halt := false }

/-- `load(index) { this.value = LENGTH_TABLE[index & 0x1F] || 0; }` -/
def LengthCounter.load (l : LengthCounter) (index : ℕ) : LengthCounter :=
  { l with value := LENGTH_TABLE.getD (index &&& 0x1F) 0 }

def LengthCounter.half (l : LengthCounter) : LengthCounter :=
  if ¬l.halt ∧ l.value > 0 then { l with value := l.value - 1 } else l

def LengthCounter.zero (l : LengthCounter) : Bool := l.value == 0

/-! ### Sweep unit

In the source the sweep holds a back-reference to its owning pulse
channel and reads/writes `this.pulse.timer`.  Here the timer is passed
in and the (possibly updated) timer is returned alongside the new sweep
state; `Pulse.half` below threads it back into the channel. -/

structure Sweep where
  isPulse1 : Bool
  enabled : Bool
  period : ℕ
  negate : Bool
  shift : ℕ
  counter : ℕ
  reload : Bool

def Sweep.init (isPulse1 : Bool) : Sweep :=
  { isPulse1 := isPulse1, enabled := false, period := 0, negate := false,
    shift := 0, counter := 0, reload := false }

def Sweep.write (s : Sweep) (n : ℕ) : Sweep :=
  { s with enabled := n &&& 0x80 != 0, period := (n >>> 4) &&& 0x07,
           negate := n &&& 0x08 != 0, shift := n &&& 0x07, reload := true }

def Sweep.target (s : Sweep) (p : ℤ) : ℤ :=
  let change := jsShr32 p s.shift
  if s.shift = 0 then p
  else
    let t := if s.negate then p - change else p + change
    if s.negate && s.isPulse1 then t - 1 else t

/-- `Sweep.half()`: returns the new sweep state and the new value of the
owning pulse channel's timer. -/
def Sweep.halfStep (s : Sweep) (p : ℤ) : Sweep × ℤ :=
  let cp : ℕ × ℤ :=
    if s.counter = 0 then
      (s.period,
        if s.enabled ∧ s.shift ≠ 0 then
          if s.target p < 0x800 ∧ 8 ≤ p then s.target p else p
        else p)
    else (s.counter - 1, p)
  let cr : ℕ × Bool := if s.reload then (s.period, false) else (cp.1, s.reload)
  ({ s with counter := cr.1, reload := cr.2 }, cp.2)

/-! ### Pulse channel -/

def DUTY : List (List ℕ) :=
  [[0, 0, 0, 0, 0, 0, 0, 1],
   [0, 0, 0, 0, 0, 0, 1, 1],
   [0, 0, 0, 0, 1, 1, 1, 1],
   [1, 1, 1, 1, 1, 1, 0, 0]]

structure Pulse where
  isPulse1 : Bool
  enabled : Bool
  env : Envelope
  len : LengthCounter
  sweep : Sweep
  duty : ℕ
  dutyStep : ℕ
  timer : ℤ
  timerCnt : ℤ

def Pulse.init (isPulse1 : Bool) : Pulse :=
  { isPulse1 := isPulse1, enabled := false, env := Envelope.init,
    len := LengthCounter.init, sweep := Sweep.init isPulse1, duty := 0,
    dutyStep := 0, timer := 0, timerCnt := 0 }

def Pulse.write0 (p : Pulse) (n : ℕ) : Pulse :=
  let e := p.env.write n
  { p with env := e, len := { p.len with halt := e.loop },
           duty := (n >>> 6) &&& 3 }

def Pulse.write1 (p : Pulse) (n : ℕ) : Pulse := { p with sweep := p.sweep.write n }

def Pulse.write2 (p : Pulse) (n : ℕ) : Pulse :=
  { p with timer := jsOr32 (jsAnd32 p.timer 0x700) (Int.ofNat n) }

def Pulse.write3 (p : Pulse) (n : ℕ) : Pulse :=
  let p := { p with timer := jsOr32 (jsAnd32 p.timer 0x0FF)
                              (jsShl32 (Int.ofNat (n &&& 7)) 8) }
  let p := if p.enabled then { p with len := p.len.load ((n >>> 3) &&& 0x1F) }
           else p
  { p with env := p.env.restart, dutyStep := 0 }

def Pulse.setEnabled (p : Pulse) (onFlag : Bool) : Pulse :=
  let p := { p with enabled := onFlag }
  if ¬p.enabled then { p with len := { p.len with value := 0 } } else p

def Pulse.quarter (p : Pulse) : Pulse := { p with env := p.env.quarter }

def Pulse.half (p : Pulse) : Pulse :=
  let p := { p with len := p.len.half }
  let st := p.sweep.halfStep p.timer
  { p with sweep := st.1, timer := st.2 }

def Pulse.clock (p : Pulse) : Pulse :=
  if p.timerCnt = 0 then
    { p with timerCnt := p.timer, dutyStep := (p.dutyStep + 1) &&& 7 }
  else { p with timerCnt := p.timerCnt - 1 }

def Pulse.out (p : Pulse) : ℕ :=
  if ¬p.enabled ∨ p.len.zero ∨ p.timer < 8 then 0
  else
    let gate := (DUTY.getD p.duty []).getD p.dutyStep 0
    if gate ≠ 0 then p.env.out else 0

/-! ### Triangle channel -/

def TRI_TABLE : List ℕ :=
  [15, 14, 13, 12, 11, 10, 9, 8, 7, 6, 5, 4, 3, 2, 1, 0,
   0, 1, 2, 3, 4, 5, 6, 7, 8, 9, 10, 11, 12, 13, 14, 15]

structure Triangle where
  enabled : Bool
  len : LengthCounter
  control : Bool
  linearReload : ℕ
  linear : ℕ
  reloadFlag : Bool
  timer : ℤ
  timerCnt : ℤ
  step : ℕ

def Triangle.init : Triangle :=
  { enabled := false, len := LengthCounter.init, control := false,
    linearReload := 0, linear := 0, reloadFlag := false, timer := 0,
    timerCnt := 0, step := 0 }

def Triangle.write0 (t : Triangle) (n : ℕ) : Triangle :=
  { t with control := n &&& 0x80 != 0,
           len := { t.len with halt := n &&& 0x80 != 0 },
           linearReload := n &&& 0x7F }

def Triangle.write2 (t : Triangle) (n : ℕ) : Triangle :=
  { t with timer := jsOr32 (jsAnd32 t.timer 0x700) (Int.ofNat n) }

def Triangle.write3 (t : Triangle) (n : ℕ) : Triangle :=
  let t := { t with timer := jsOr32 (jsAnd32 t.timer 0x0FF)
                              (jsShl32 (Int.ofNat (n &&& 7)) 8) }
  let t := if t.enabled then { t with len := t.len.load ((n >>> 3) &&& 0x1F) }
           else t
  { t with reloadFlag := true }

def Triangle.setEnabled (t : Triangle) (onFlag : Bool) : Triangle :=
  let t := { t with enabled := onFlag }
  if ¬t.enabled then { t with len := { t.len with value := 0 } } else t

def Triangle.quarter (t : Triangle) : Triangle :=
  let t1 := if t.reloadFlag then { t with linear := t.linearReload }
            else if t.linear > 0 then { t with linear := t.linear - 1 } else t
  if ¬t1.control then { t1 with reloadFlag := false } else t1

def Triangle.half (t : Triangle) : Triangle := { t with len := t.len.half }

def Triangle.clock (t : Triangle) : Triangle :=
  if t.timerCnt = 0 then
    let t1 := { t with timerCnt := t.timer }
    if ¬t1.len.zero ∧ t1.linear > 0 then { t1 with step := (t1.step + 1) &&& 31 }
    else t1
  else { t with timerCnt := t.timerCnt - 1 }

def Triangle.out (t : Triangle) : ℕ :=
  if ¬t.enabled ∨ t.len.zero ∨ t.linear = 0 ∨ t.timer < 2 then 0
  else TRI_TABLE.getD t.step 0

/-! ### Noise channel -/

structure Noise where
  enabled : Bool
  env : Envelope
  len : LengthCounter
  mode : ℕ
  periodIdx : ℕ
  timerCnt : ℤ
  lfsr : ℕ

def Noise.init : Noise :=
  { enabled := false, env := Envelope.init, len := LengthCounter.init,
    mode := 0, periodIdx := 0, timerCnt := 0, lfsr := 1 }

def Noise.write0 (s : Noise) (n : ℕ) : Noise :=
  let e := s.env.write n
  { s with env := e, len := { s.len with halt := e.loop } }

def Noise.write2 (s : Noise) (n : ℕ) : Noise :=
  { s with mode := if n &&& 0x80 ≠ 0 then 1 else 0, periodIdx := n &&& 0x0F }

def Noise.write3 (s : Noise) (n : ℕ) : Noise :=
  let s := if s.enabled then { s with len := s.len.load ((n >>> 3) &&& 0x1F) }
           else s
  { s with env := s.env.restart }

def Noise.setEnabled (s : Noise) (onFlag : Bool) : Noise :=
  let s := { s with enabled := onFlag }
  if ¬s.enabled then { s with len := { s.len with value := 0 } } else s

def Noise.quarter (s : Noise) : Noise := { s with env := s.env.quarter }

def Noise.half (s : Noise) : Noise := { s with len := s.len.half }

/-- `Noise.clock()`: `this.lfsr = (this.lfsr >> 1) | (fb << 14)` with
feedback `fb = bit0 XOR (mode ? bit6 : bit1)`.  `lfsr` stays a
nonnegative 15-bit quantity, so JS `>>`/`|` agree with the Nat
operations. -/
def Noise.clock (s : Noise) : Noise :=
  if s.timerCnt = 0 then
    let bit0 := s.lfsr &&& 1
    let tap := if s.mode ≠ 0 then (s.lfsr >>> 6) &&& 1 else (s.lfsr >>> 1) &&& 1
    let fb := bit0 ^^^ tap
    { s with timerCnt := NOISE_PERIODS.getD s.periodIdx 4,
             lfsr := (s.lfsr >>> 1) ||| (fb <<< 14) }
  else { s with timerCnt := s.timerCnt - 1 }

def Noise.out (s : Noise) : ℕ :=
  if ¬s.enabled ∨ s.len.zero ∨ s.lfsr &&& 1 ≠ 0 then 0 else s.env.out

/-! ### DMC channel

The `cpuRead` DMA callback is modelled as an explicit memory function
`mem : ℕ → ℕ`; `cpuStall(4)` is pure cycle accounting on the external
processor and carries no modelled state.  Operations that can invoke
`cpuRead` return the number of invocations they performed so that the
DMA read count is part of the observable behaviour. -/

structure DMC where
  enabled : Bool
  irqEnable : Bool
  loop : Bool
  rateIdx : ℕ
  timer : ℤ
  timerCnt : ℤ
  sampleAddr0 : ℕ
  sampleLen0 : ℕ
  currentAddr : ℕ
  bytesRemaining : ℕ
  sampleBufferEmpty : Bool
  sampleBuffer : ℕ
  shiftReg : ℕ
  bitsRemaining : ℕ
  dac : ℕ
  irq : Bool

def DMC.init : DMC :=
  { enabled := false, irqEnable := false, loop := false, rateIdx := 0,
    timer := DMC_RATES.getD 0 0, timerCnt := 0, sampleAddr0 := 0xC000,
    sampleLen0 := 1, currentAddr := 0, bytesRemaining := 0,
    sampleBufferEmpty := true, sampleBuffer := 0, shiftReg := 0,
    bitsRemaining := 0, dac := 0, irq := false }

def DMC.write0 (d : DMC) (n : ℕ) : DMC :=
  let d := { d with irqEnable := n &&& 0x80 != 0 }
  let d := if ¬d.irqEnable then { d with irq := false } else d
  { d with loop := n &&& 0x40 != 0, rateIdx := n &&& 0x0F,
           timer := DMC_RATES.getD (n &&& 0x0F) 428 }

def DMC.write1 (d : DMC) (n : ℕ) : DMC := { d with dac := n &&& 0x7F }

def DMC.write2 (d : DMC) (n : ℕ) : DMC :=
  { d with sampleAddr0 := 0xC000 + ((n &&& 0xFF) <<< 6) }

def DMC.write3 (d : DMC) (n : ℕ) : DMC :=
  { d with sampleLen0 := ((n &&& 0xFF) <<< 4) + 1 }

def DMC.setEnabled (d : DMC) (onFlag : Bool) : DMC :=
  let d' := { d with enabled := onFlag }
  if d'.enabled ∧ ¬d.enabled then
    if d.bytesRemaining = 0 then
      { d' with currentAddr := d.sampleAddr0, bytesRemaining := d.sampleLen0 }
    else d'
  else if ¬d'.enabled then { d' with bytesRemaining := 0, irq := false }
  else d'

/-- `refillBufferIfNeeded()`: fetch one byte into the sample buffer when
it is empty and bytes remain; returns the DMA read count (0 or 1). -/
def DMC.refillBufferIfNeeded (mem : ℕ → ℕ) (d : DMC) : DMC × ℕ :=
  if ¬d.sampleBufferEmpty ∨ d.bytesRemaining = 0 then (d, 0)
  else
    let data := mem (d.currentAddr &&& 0xFFFF) &&& 0xFF
    let d := { d with sampleBuffer := data, sampleBufferEmpty := false,
                      currentAddr := (d.currentAddr + 1) &&& 0xFFFF,
                      bytesRemaining := d.bytesRemaining - 1 }
    let d :=
      if d.bytesRemaining = 0 ∧ d.loop then
        { d with currentAddr := d.sampleAddr0, bytesRemaining := d.sampleLen0 }
      else if d.bytesRemaining = 0 ∧ d.irqEnable then { d with irq := true }
      else d
    (d, 1)

def DMC.clock (mem : ℕ → ℕ) (d : DMC) : DMC × ℕ :=
  let dr := d.refillBufferIfNeeded mem
  let d := dr.1
  if d.timerCnt = 0 then
    let d := { d with timerCnt := d.timer }
    if d.bitsRemaining = 0 then
      if ¬d.sampleBufferEmpty then
        let d := { d with shiftReg := d.sampleBuffer, sampleBufferEmpty := true,
                          bitsRemaining := 8 }
        let dr2 := d.refillBufferIfNeeded mem
        (dr2.1, dr.2 + dr2.2)
      else (d, dr.2)
    else
      let d :=
        if d.shiftReg &&& 1 ≠ 0 then
          (if d.dac ≤ 125 then { d with dac := d.dac + 2 } else d)
        else
          (if d.dac ≥ 2 then { d with dac := d.dac - 2 } else d)
      ({ d with shiftReg := d.shiftReg >>> 1,
                bitsRemaining := d.bitsRemaining - 1 }, dr.2)
  else ({ d with timerCnt := d.timerCnt - 1 }, dr.2)

def DMC.out (d : DMC) : ℕ := d.dac

def DMC.statusActiveBit (d : DMC) : ℕ := if d.bytesRemaining > 0 then 1 else 0

/-- Iterated `DMC.clock`, accumulating the total DMA read count. -/
def DMC.clockN (mem : ℕ → ℕ) : ℕ → DMC → DMC × ℕ
  | 0, d => (d, 0)
  | n + 1, d =>
    let dr := d.clock mem
    let dr2 := DMC.clockN mem n dr.1
    (dr2.1, dr.2 + dr2.2)

/-! ### APU core

The fields mirror the APU constructor.  `phase` models `this._phase`
(lazy-initialised by `step` to 0, so 0 from the start here).  Two
instrumentation counters `quarters` and `halves` record how many times
`_clockQuarter` and the half-frame part of `_clockQuarterHalf` have run;
they correspond to no source field but only count the tick deliveries
that the source performs on the channel objects (which are also modelled
faithfully below). -/

structure APU where
  pulse1 : Pulse
  pulse2 : Pulse
  triangle : Triangle
  noise : Noise
  dmc : DMC
  frameIRQ : Bool
  mode5 : Bool
  irqInhibit : Bool
  seqTime : ℚ
  phase : ℕ
  master : ℚ
  sampleRate : ℚ
  samplePeriod : ℚ
  sampleTimer : ℚ
  quarters : ℕ
  halves : ℕ

def qPeriod : ℚ := NTSC_CPU_HZ / 240

def APU.init : APU :=
  { pulse1 := Pulse.init true, pulse2 := Pulse.init false,
    triangle := Triangle.init, noise := Noise.init, dmc := DMC.init,
    frameIRQ := false, mode5 := false, irqInhibit := true, seqTime := 0,
    phase := 0, master := 0.3, sampleRate := 48000,
    samplePeriod := NTSC_CPU_HZ / 48000, sampleTimer := 0,
    quarters := 0, halves := 0 }

def APU.clockQuarter (a : APU) : APU :=
  { a with pulse1 := a.pulse1.quarter, pulse2 := a.pulse2.quarter,
           triangle := a.triangle.quarter, noise := a.noise.quarter,
           quarters := a.quarters + 1 }

def APU.clockQuarterHalf (a : APU) : APU :=
  let a := a.clockQuarter
  { a with pulse1 := a.pulse1.half, pulse2 := a.pulse2.half,
           triangle := a.triangle.half, noise := a.noise.half,
           halves := a.halves + 1 }

/-- `APU.write` for $4000–$4017.  `_updateIRQLine` only reports the
combined IRQ level through the external `onIRQ` callback and changes no
modelled state. -/
def APU.write (a : APU) (addr : ℕ) (v0 : ℕ) : APU :=
  let v := v0 &&& 0xFF
  if addr = 0x4000 then { a with pulse1 := a.pulse1.write0 v }
  else if addr = 0x4001 then { a with pulse1 := a.pulse1.write1 v }
  else if addr = 0x4002 then { a with pulse1 := a.pulse1.write2 v }
  else if addr = 0x4003 then { a with pulse1 := a.pulse1.write3 v }
  else if addr = 0x4004 then { a with pulse2 := a.pulse2.write0 v }
  else if addr = 0x4005 then { a with pulse2 := a.pulse2.write1 v }
  else if addr = 0x4006 then { a with pulse2 := a.pulse2.write2 v }
  else if addr = 0x4007 then { a with pulse2 := a.pulse2.write3 v }
  else if addr = 0x4008 then { a with triangle := a.triangle.write0 v }
  else if addr = 0x400A then { a with triangle := a.triangle.write2 v }
  else if addr = 0x400B then { a with triangle := a.triangle.write3 v }
  else if addr = 0x400C then { a with noise := a.noise.write0 v }
  else if addr = 0x400E then { a with noise := a.noise.write2 v }
  else if addr = 0x400F then { a with noise := a.noise.write3 v }
  else if addr = 0x4010 then { a with dmc := a.dmc.write0 v }
  else if addr = 0x4011 then { a with dmc := a.dmc.write1 v }
  else if addr = 0x4012 then { a with dmc := a.dmc.write2 v }
  else if addr = 0x4013 then { a with dmc := a.dmc.write3 v }
  else if addr = 0x4015 then
    let a := { a with pulse1 := a.pulse1.setEnabled (v &&& 1 != 0),
                      pulse2 := a.pulse2.setEnabled (v &&& 2 != 0),
                      triangle := a.triangle.setEnabled (v &&& 4 != 0),
                      noise := a.noise.setEnabled (v &&& 8 != 0) }
    let enableDmc := v &&& 0x10 != 0
    let a := { a with dmc := a.dmc.setEnabled enableDmc }
    if ¬enableDmc then { a with dmc := { a.dmc with irq := false } } else a
  else if addr = 0x4017 then
    let a := { a with mode5 := v &&& 0x80 != 0, irqInhibit := v &&& 0x40 != 0 }
    let a := if a.irqInhibit then { a with frameIRQ := false } else a
    let a := { a with seqTime := 0 }
    if a.mode5 then a.clockQuarterHalf else a
  else a

/-- `APU.read`: only $4015 is implemented; reading it clears both sticky
IRQ flags.  Returns the bus value and the updated APU. -/
def APU.read (a : APU) (addr : ℕ) : ℕ × APU :=
  if addr ≠ 0x4015 then (0, a)
  else
    let p1 : ℕ := if a.pulse1.len.zero then 0 else 1
    let p2 : ℕ := if a.pulse2.len.zero then 0 else 2
    let tri : ℕ := if a.triangle.len.zero then 0 else 4
    let noi : ℕ := if a.noise.len.zero then 0 else 8
    let dmcActive : ℕ := if a.dmc.statusActiveBit ≠ 0 then 16 else 0
    let frameIrqBit : ℕ := if a.frameIRQ then 0x40 else 0
    let dmcIrqBit : ℕ := if a.dmc.irq then 0x80 else 0
    let val := p1 ||| p2 ||| tri ||| noi ||| dmcActive ||| frameIrqBit ||| dmcIrqBit
    (val, { a with frameIRQ := false, dmc := { a.dmc with irq := false } })

/-- The per-CPU-cycle channel clocking at the top of the `step` loop. -/
def APU.clockChannels (mem : ℕ → ℕ) (a : APU) : APU :=
  { a with pulse1 := a.pulse1.clock, pulse2 := a.pulse2.clock,
           triangle := a.triangle.clock, noise := a.noise.clock,
           dmc := (a.dmc.clock mem).1 }

/-- The frame-sequencer part of one iteration of the `step` loop: the
`seqTime` increment and the four sequential phase-boundary `if`s. -/
def APU.seqUpdate (a : APU) : APU :=
  let a := { a with seqTime := a.seqTime + 1 }
  let t : ℚ := a.seqTime
  let a := if a.phase = 0 ∧ qPeriod * 1 ≤ t then { APU.clockQuarter a with phase := 1 }
           else a
  let a := if a.phase = 1 ∧ qPeriod * 2 ≤ t then { APU.clockQuarterHalf a with phase := 2 }
           else a
  let a := if a.phase = 2 ∧ qPeriod * 3 ≤ t then { APU.clockQuarter a with phase := 3 }
           else a
  if a.phase = 3 ∧ qPeriod * 4 ≤ t then
    let a := APU.clockQuarterHalf a
    let a := if ¬a.mode5 ∧ ¬a.irqInhibit then { a with frameIRQ := true } else a
    { a with seqTime := a.seqTime - qPeriod * 4, phase := 0 }
  else a

/-- The audio-resampling part of one iteration of the `step` loop.  The
computed `_mix()` sample goes to the external audio sink or sample
callback and does not change the modelled state. -/
def APU.sampleUpdate (a : APU) : APU :=
  let a := { a with sampleTimer := a.sampleTimer + 1 }
  if a.samplePeriod ≤ a.sampleTimer then
    { a with sampleTimer := a.sampleTimer - a.samplePeriod }
  else a

/-- One iteration of the `for` loop in `APU.step(cycles)`. -/
def APU.stepCycle (mem : ℕ → ℕ) (a : APU) : APU :=
  ((a.clockChannels mem).seqUpdate).sampleUpdate

/-- `APU.step(cycles)`. -/
def APU.step (mem : ℕ → ℕ) (cycles : ℕ) (a : APU) : APU :=
  (APU.stepCycle mem)^[cycles] a

/-- `_mix()` as a function of the five channel outputs and the master
volume (the source reads those five outputs and `this.master` and uses
nothing else). -/
def mixFormula (p1 p2 tri noi dmc : ℕ) (master : ℚ) : ℚ :=
  let pulseTerm : ℚ :=
    if p1 ≠ 0 ∨ p2 ≠ 0 then 95.88 / (8128 / ((p1 : ℚ) + (p2 : ℚ)) + 100) else 0
  let tnd : ℚ := (tri : ℚ) / 8227 + (noi : ℚ) / 12241 + (dmc : ℚ) / 22638
  let tndTerm : ℚ := if tnd ≠ 0 then 159.79 / (1 / tnd + 100) else 0
  let mixed := (pulseTerm + tndTerm) * master
  mixed * 2 - 1

def APU.mix (a : APU) : ℚ :=
  mixFormula a.pulse1.out a.pulse2.out a.triangle.out a.noise.out a.dmc.out a.master

def APU.setVolume (a : APU) (v : ℚ) : APU := { a with master := clamp01 v }

def APU.cpuIRQ (a : APU) : Bool := a.dmc.irq || a.frameIRQ

/-! ### Operation alphabets used by the invariant claims -/

/-- The register/clock operations that can touch the noise channel. -/
inductive NoiseOp where
  | clock : NoiseOp
  | write0 (n : ℕ) : NoiseOp
  | write2 (n : ℕ) : NoiseOp
  | write3 (n : ℕ) : NoiseOp
  | setEnabled (b : Bool) : NoiseOp
  | quarter : NoiseOp
  | half : NoiseOp

def Noise.applyOp (s : Noise) : NoiseOp → Noise
  | NoiseOp.clock => s.clock
  | NoiseOp.write0 n => s.write0 n
  | NoiseOp.write2 n => s.write2 n
  | NoiseOp.write3 n => s.write3 n
  | NoiseOp.setEnabled b => s.setEnabled b
  | NoiseOp.quarter => s.quarter
  | NoiseOp.half => s.half

/-! ### Concrete states used by witnesses and counterexamples -/

/-- All-zero DMA memory, used where a concrete `cpuRead` is needed. -/
def memZero : ℕ → ℕ := fun _ => 0

/-- PPU reached from reset by writing $FF twice to $2006 (addr = $FFFF). -/
def ppuC2 : PPU := (PPU.init.writeRegister 0x2006 0xFF).writeRegister 0x2006 0xFF

/-- An APU whose frame sequencer sits mid-sequence (phase 1), as it does
after 7458 stepped CPU cycles from reset. -/
def apuPhase1 : APU := { APU.init with phase := 1 }

/-- A sweep unit about to apply its target on the next half-frame tick. -/
def sweepC6 : Sweep :=
  { Sweep.init false with enabled := true, shift := 1, counter := 0, period := 2 }

/-- A DMC programmed with a 17-byte sample (write3 1), IRQ enabled
(write0 $80), then enabled: bytesRemaining = 17. -/
def dmcC5 : DMC := ((DMC.init.write0 0x80).write3 1).setEnabled true

/-! ### Helper lemmas -/

theorem LengthCounter.half_halt (l : LengthCounter) : l.half.halt = l.halt := by
  unfold LengthCounter.half; split <;> rfl

theorem LengthCounter.iterate_half (l : LengthCounter) (hh : l.halt = false)
    (hv : 0 ≤ l.value) (n : ℕ) :
    (LengthCounter.half^[n] l).value = max (l.value - n) 0 ∧
    (LengthCounter.half^[n] l).halt = false := by
  induction n with
  | zero =>
    refine ⟨?_, by simpa using hh⟩
    simp only [Function.iterate_zero, id_eq, Nat.cast_zero, sub_zero]
    omega
  | succ k ih =>
    obtain ⟨ihv, ihh⟩ := ih
    rw [Function.iterate_succ_apply']
    set w := LengthCounter.half^[k] l with hw
    refine ⟨?_, by rw [LengthCounter.half_halt, ihh]⟩
    unfold LengthCounter.half
    split_ifs with h
    · simp only [Nat.cast_succ]
      omega
    · have hv2 : ¬w.value > 0 := fun hpos => h ⟨by simp [ihh], hpos⟩
      simp only [Nat.cast_succ]
      omega

theorem lor_eq_zero_parts (a b : ℕ) (h : a ||| b = 0) : a = 0 ∧ b = 0 := by
  constructor <;> by_contra hne
  · obtain ⟨i, hi⟩ := Nat.exists_most_significant_bit hne
    have h2 : (a ||| b).testBit i = true := by simp [Nat.testBit_lor, hi.1]
    rw [h] at h2
    simp at h2
  · obtain ⟨i, hi⟩ := Nat.exists_most_significant_bit hne
    have h2 : (a ||| b).testBit i = true := by simp [Nat.testBit_lor, hi.1]
    rw [h] at h2
    simp at h2

/-- The LFSR feedback step preserves nonzeroness, for a tap at any bit
position at least 1. -/
theorem lfsr_feedback_ne_zero (x k : ℕ) (hk : 1 ≤ k) (hx : x ≠ 0) :
    (x >>> 1) ||| (((x &&& 1) ^^^ ((x >>> k) &&& 1)) <<< 14) ≠ 0 := by
  intro hz
  obtain ⟨h1, h2⟩ := lor_eq_zero_parts _ _ hz
  have hx1 : x = 1 := by
    rw [Nat.shiftRight_eq_div_pow] at h1
    omega
  subst hx1
  have hk0 : (1 : ℕ) >>> k = 0 := by
    rw [Nat.shiftRight_eq_div_pow]
    have h2k : (2 : ℕ) ^ 1 ≤ 2 ^ k := Nat.pow_le_pow_right (by norm_num) hk
    exact Nat.div_eq_of_lt (by omega)
  rw [hk0] at h2
  simp [Nat.shiftLeft_eq] at h2

/-- One noise-channel operation cannot zero a nonzero LFSR. -/
theorem Noise.applyOp_lfsr (s : Noise) (o : NoiseOp) (h : s.lfsr ≠ 0) :
    (s.applyOp o).lfsr ≠ 0 := by
  cases o with
  | clock =>
    show (s.clock).lfsr ≠ 0
    unfold Noise.clock
    by_cases ht : s.timerCnt = 0
    · rw [if_pos ht]
      show (s.lfsr >>> 1) |||
        (((s.lfsr &&& 1) ^^^
          (if s.mode ≠ 0 then (s.lfsr >>> 6) &&& 1 else (s.lfsr >>> 1) &&& 1)) <<< 14) ≠ 0
      rcases eq_or_ne s.mode 0 with hm | hm
      · rw [if_neg (by simp [hm])]
        exact lfsr_feedback_ne_zero s.lfsr 1 le_rfl h
      · rw [if_pos hm]
        exact lfsr_feedback_ne_zero s.lfsr 6 (by norm_num) h
    · rw [if_neg ht]
      simpa using h
  | write0 n => simpa [Noise.applyOp, Noise.write0] using h
  | write2 n => simpa [Noise.applyOp, Noise.write2] using h
  | write3 n =>
    show (s.write3 n).lfsr ≠ 0
    by_cases he : s.enabled <;> simpa [Noise.write3, he] using h
  | setEnabled b =>
    show (s.setEnabled b).lfsr ≠ 0
    cases b <;> simpa [Noise.setEnabled] using h
  | quarter => simpa [Noise.applyOp, Noise.quarter] using h
  | half => simpa [Noise.applyOp, Noise.half] using h

/-! ### Claim theorems -/

/-- Claim C1: for every pair of consecutive $2005 writes starting from the
untoggled state, the first write sets `scrollX` to the written value and
arms the toggle, and the second write sets `scrollY` to the written value
and disarms the toggle.  In the source the toggle is the nullness of
`scrollX` itself: untoggled/disarmed is `scrollX === null` (the next
write goes to X), armed is `scrollX` non-null (the next write goes to Y).
The first conjunct therefore both records the X value and arms the
toggle, and the last conjunct is the disarming. -/
theorem C1_scroll_two_write_toggle (p : PPU) (v1 v2 : ℕ) (h : p.scrollX = none) :
    ((p.writeRegister 0x2005 v1).scrollX = some v1) ∧
    ((p.writeRegister 0x2005 v1).scrollY = p.scrollY) ∧
    (((p.writeRegister 0x2005 v1).writeRegister 0x2005 v2).scrollY = v2) ∧
    (((p.writeRegister 0x2005 v1).writeRegister 0x2005 v2).scrollX = none) := by
  simp [PPU.writeRegister, h]

theorem C1_scroll_two_write_toggle_witness :
    ((PPU.init.writeRegister 0x2005 99).scrollX = none) ∧
    (((PPU.init.writeRegister 0x2005 99).writeRegister 0x2005 10).scrollX = some 10) ∧
    ((((PPU.init.writeRegister 0x2005 99).writeRegister 0x2005 10).writeRegister
        0x2005 20).scrollY = 20) := by
  have h0 : (PPU.init.writeRegister 0x2005 99).scrollX = none := by decide
  have h := C1_scroll_two_write_toggle (PPU.init.writeRegister 0x2005 99) 10 20 h0
  exact ⟨h0, h.1, h.2.2.1⟩

/-- Claim C2 is false on the code: `this.addr++` and `this.oamAddr++` are
plain JS number increments with no modular reduction.  Concretely, from
reset two $2006 writes of $FF build `addr = 0xFFFF` (a reachable state);
the next $2007 access leaves `addr = 0x10000`, not
`(0xFFFF + 1) mod 2^16 = 0`. -/
theorem C2_vram_pointer_wrap_counterexample :
    ppuC2.addr = 65535 ∧
    (ppuC2.readRegister 0x2007).2.addr = 65536 ∧
    (ppuC2.readRegister 0x2007).2.addr ≠ (ppuC2.addr + 1) % 65536 := by
  refine ⟨by decide, by decide, by decide⟩

/-- Claim C2, amended: a $2007 access (read or write) increments `addr` by
exactly one with no mod-2^16 wrap (the pointer can leave the 16-bit
range; such out-of-range typed-array accesses hit no backing store), and
a $2004 write increments `oamAddr` by exactly one with no mod-256 wrap. -/
theorem C2_auto_increment_no_wrap (p : PPU) (v : ℕ) :
    ((p.readRegister 0x2007).2.addr = p.addr + 1) ∧
    ((p.writeRegister 0x2007 v).addr = p.addr + 1) ∧
    ((p.writeRegister 0x2004 v).oamAddr = p.oamAddr + 1) := by
  refine ⟨?_, ?_, ?_⟩ <;>
    simp [PPU.readRegister, PPU.writeRegister, PPU.vramWrite, PPU.oamWrite]

/-- Claim C6: on a half-frame tick the sweep's computed target
(`timer ± (timer >> shift)`, subtracting under negate, with pulse 1
applying an extra −1 under negate — all captured by `Sweep.target`) is
written back to the owning pulse channel's timer only when the target is
< 0x800 and the current timer is ≥ 8 (and the sweep's divider has
expired with the unit enabled and a nonzero shift); in every other case
the timer is unchanged; and `Pulse.out` is 0 whenever the timer is < 8. -/
theorem C6_sweep_writeback (pl : Pulse) (q : Pulse) (hq : q.timer < 8) :
    ((pl.half).timer = pl.timer ∨
     ((pl.half).timer = pl.sweep.target pl.timer ∧
      pl.sweep.target pl.timer < 0x800 ∧ 8 ≤ pl.timer)) ∧
    ((pl.sweep.counter = 0 ∧ pl.sweep.enabled = true ∧ pl.sweep.shift ≠ 0 ∧
      pl.sweep.target pl.timer < 0x800 ∧ 8 ≤ pl.timer) →
      (pl.half).timer = pl.sweep.target pl.timer) ∧
    q.out = 0 := by
  have hhalf : (pl.half).timer = (pl.sweep.halfStep pl.timer).2 := rfl
  refine ⟨?_, ?_, ?_⟩
  · rw [hhalf]
    unfold Sweep.halfStep
    simp only
    split_ifs with h1 h2 h3 <;> simp_all
  · rintro ⟨hc, he, hs, ht, h8⟩
    rw [hhalf]
    unfold Sweep.halfStep
    simp [hc, he, hs, ht, h8]
  · simp [Pulse.out, hq]

theorem C6_sweep_writeback_witness :
    (({ Pulse.init false with sweep := sweepC6, timer := 100 } : Pulse).half).timer = 150 ∧
    (Pulse.init true).out = 0 := by
  have h := C6_sweep_writeback
      ({ Pulse.init false with sweep := sweepC6, timer := 100 } : Pulse)
      (Pulse.init true) (by decide)
  refine ⟨?_, h.2.2⟩
  have h2 := h.2.1 ⟨by decide, by decide, by decide, by decide, by decide⟩
  rw [h2]
  decide

/-- Claim C8: for every 5-bit index `i`, loading the length counter sets
its value to the i-th entry of the fixed 32-entry table; a half-frame
tick with halt clear and a positive value decrements the value by exactly
one; a halted counter is unchanged by half-frame ticks; iterated
half-frame ticks drive the value to exactly 0 (reached after `value`
ticks) and never below 0. -/
theorem C8_length_counter (i : ℕ) (l : LengthCounter) (n : ℕ)
    (hi : i < 32) (hh : l.halt = false) (hv : 0 ≤ l.value) :
    ((l.load i).value = LENGTH_TABLE.getD i 0) ∧
    (0 < l.value → (l.half).value = l.value - 1) ∧
    (∀ m : LengthCounter, m.halt = true → m.half = m) ∧
    ((LengthCounter.half^[n] l).value = max (l.value - n) 0) ∧
    (0 ≤ (LengthCounter.half^[n] l).value) ∧
    ((LengthCounter.half^[l.value.toNat] l).value = 0) := by
  have hmask : i &&& 31 = i := by
    rw [show (31 : ℕ) = 2 ^ 5 - 1 from rfl, Nat.and_pow_two_sub_one_eq_mod]
    exact Nat.mod_eq_of_lt hi
  refine ⟨by simp [LengthCounter.load, hmask], ?_, ?_, ?_, ?_, ?_⟩
  · intro hpos
    simp [LengthCounter.half, hh, hpos]
  · intro m hm
    simp [LengthCounter.half, hm]
  · exact (LengthCounter.iterate_half l hh hv n).1
  · rw [(LengthCounter.iterate_half l hh hv n).1]
    omega
  · rw [(LengthCounter.iterate_half l hh hv l.value.toNat).1]
    omega

theorem C8_length_counter_witness :
    ((LengthCounter.init.load 3).load 1).value = 254 ∧
    (LengthCounter.half^[5] (LengthCounter.init.load 3)).value = 0 := by
  have h := C8_length_counter 1 (LengthCounter.init.load 3) 5 (by norm_num) rfl (by decide)
  refine ⟨?_, ?_⟩
  · rw [h.1]
    decide
  · rw [h.2.2.2.1]
    decide

/-- Claim C10 (implicit invariant): the noise channel's 15-bit LFSR,
initialised to 1, never becomes 0 under any sequence of `clock()` calls
in either mode, with arbitrarily interleaved register writes, enables
and frame ticks. -/
theorem C10_noise_lfsr_never_zero (ops : List NoiseOp) :
    (ops.foldl Noise.applyOp Noise.init).lfsr ≠ 0 := by
  have key : ∀ (tl : List NoiseOp) (s : Noise), s.lfsr ≠ 0 →
      (tl.foldl Noise.applyOp s).lfsr ≠ 0 := by
    intro tl
    induction tl with
    | nil => exact fun s h => h
    | cons o t ih => exact fun s h => ih _ (Noise.applyOp_lfsr s o h)
  exact key ops Noise.init (by decide)

/-- Claim C3 is false on the code in one respect: the $4017 handler
resets `seqTime` but never touches the sequencer phase (`this._phase`).
Concretely, with the sequencer at phase 1 (as it is after 7458 stepped
cycles from reset), a $4017 write leaves the phase at 1, not 0. -/
theorem C3_frame_counter_write_counterexample :
    apuPhase1.phase = 1 ∧
    (apuPhase1.write 0x4017 0).seqTime = 0 ∧
    (apuPhase1.write 0x4017 0).phase = 1 := by
  refine ⟨by decide, by decide, by decide⟩

/-- Claim C3, amended: every write to $4017 resets the cycle accumulator
`seqTime` to 0 but leaves the sequencer phase unchanged; if the written
value selects 5-step mode, one combined quarter+half frame tick fires
immediately during the write; and if the written value sets IRQ-inhibit,
the sticky frame-IRQ flag is cleared. -/
theorem C3_frame_counter_write (a : APU) (v : ℕ) :
    ((a.write 0x4017 v).seqTime = 0) ∧
    ((a.write 0x4017 v).phase = a.phase) ∧
    (v &&& 0xFF &&& 0x80 ≠ 0 →
      (a.write 0x4017 v).quarters = a.quarters + 1 ∧
      (a.write 0x4017 v).halves = a.halves + 1) ∧
    (v &&& 0xFF &&& 0x80 = 0 →
      (a.write 0x4017 v).quarters = a.quarters ∧
      (a.write 0x4017 v).halves = a.halves) ∧
    (v &&& 0xFF &&& 0x40 ≠ 0 → (a.write 0x4017 v).frameIRQ = false) := by
  simp only [APU.write]
  norm_num
  split_ifs with h1 h2 h3 <;>
    simp_all [APU.clockQuarterHalf, APU.clockQuarter]

theorem C3_frame_counter_write_witness :
    ((APU.init.write 0x4017 0xC0).seqTime = 0) ∧
    ((APU.init.write 0x4017 0xC0).phase = 0) ∧
    ((APU.init.write 0x4017 0xC0).quarters = 1) ∧
    ((APU.init.write 0x4017 0xC0).halves = 1) ∧
    ((APU.init.write 0x4017 0xC0).frameIRQ = false) := by
  have h := C3_frame_counter_write APU.init 0xC0
  have h5 := h.2.2.1 (by decide)
  exact ⟨h.1, h.2.1, h5.1, h5.2, h.2.2.2.2 (by decide)⟩

/-- One `PPU.step` keeps `cycle` in [0,340] and `scanline` in [0,261]. -/
theorem PPU.step_inv (p : PPU) (hc : p.cycle ≤ 340) (hs : p.scanline ≤ 261) :
    (p.step).cycle ≤ 340 ∧ (p.step).scanline ≤ 261 := by
  unfold PPU.step
  simp only [apply_ite PPU.cycle, apply_ite PPU.scanline]
  split_ifs <;> simp_all <;> omega

/-- Claim C4: every state reachable by repeated `PPU.step` from reset has
`cycle` in [0,340] and `scanline` in [0,261]; the step that makes the
scanline reach 241 sets status bit 7 (vblank); a $2002 read returns the
pre-clear status and clears bit 7; the wraparound step at scanline 262
clears bit 7; and no other step changes bit 7. -/
theorem C4_ppu_timing_invariant :
    (∀ n : ℕ, (PPU.step^[n] PPU.init).cycle ≤ 340 ∧
      (PPU.step^[n] PPU.init).scanline ≤ 261) ∧
    (∀ p : PPU, p.cycle = 340 → p.scanline = 240 →
      (p.step).scanline = 241 ∧ Nat.testBit (p.step).status 7 = true) ∧
    (∀ p : PPU, (p.readRegister 0x2002).1 = some p.status ∧
      Nat.testBit (p.readRegister 0x2002).2.status 7 = false) ∧
    (∀ p : PPU, p.cycle = 340 → p.scanline = 261 →
      (p.step).scanline = 0 ∧ Nat.testBit (p.step).status 7 = false) ∧
    (∀ p : PPU, p.cycle ≤ 340 → p.scanline ≤ 261 →
      ¬(p.cycle = 340 ∧ p.scanline = 240) → ¬(p.cycle = 340 ∧ p.scanline = 261) →
      Nat.testBit (p.step).status 7 = Nat.testBit p.status 7) := by
  refine ⟨?_, ?_, ?_, ?_, ?_⟩
  · intro n
    induction n with
    | zero => refine ⟨?_, ?_⟩ <;> simp [PPU.init]
    | succ k ih =>
      rw [Function.iterate_succ_apply']
      exact PPU.step_inv _ ih.1 ih.2
  · intro p hc hs
    simp only [PPU.step, hc, hs]
    norm_num [Nat.testBit_lor]
    exact Or.inr (by decide)
  · intro p
    simp [PPU.readRegister, Nat.testBit_and]
    exact fun _ => by decide
  · intro p hc hs
    simp only [PPU.step, hc, hs]
    norm_num [Nat.testBit_and]
    exact fun _ => by decide
  · intro p hc hs h1 h2
    unfold PPU.step
    simp only [apply_ite PPU.status]
    split_ifs <;> simp_all <;> omega

theorem C4_ppu_timing_invariant_witness :
    ((PPU.step^[1000] PPU.init).cycle ≤ 340) ∧
    ((PPU.step { PPU.init with cycle := 340, scanline := 240 }).scanline = 241) ∧
    (Nat.testBit (PPU.step { PPU.init with cycle := 340, scanline := 240 }).status 7
      = true) ∧
    (Nat.testBit ((PPU.init.writeRegister 0x2001 5).readRegister 0x2002).2.status 7
      = false) ∧
    ((PPU.step { PPU.init with cycle := 340, scanline := 261, status := 255 }).scanline
      = 0) ∧
    (Nat.testBit
      (PPU.step { PPU.init with cycle := 340, scanline := 261, status := 255 }).status 7
      = false) ∧
    (Nat.testBit (PPU.step { PPU.init with cycle := 100, status := 128 }).status 7 =
      Nat.testBit ({ PPU.init with cycle := 100, status := 128 } : PPU).status 7) := by
  have h := C4_ppu_timing_invariant
  exact ⟨(h.1 1000).1, (h.2.1 _ rfl rfl).1, (h.2.1 _ rfl rfl).2, (h.2.2.1 _).2,
    (h.2.2.2.1 _ rfl rfl).1, (h.2.2.2.1 _ rfl rfl).2,
    h.2.2.2.2 _ (by decide) (by decide) (by decide) (by decide)⟩

theorem DMC.refill_inv (mem : ℕ → ℕ) (d : DMC) (L r : ℕ)
    (hloop : d.loop = false) (hirqE : d.irqEnable = true)
    (hsum : r + d.bytesRemaining = L)
    (hirq : d.irq = true ↔ d.bytesRemaining = 0) :
    (d.refillBufferIfNeeded mem).1.loop = false ∧
    (d.refillBufferIfNeeded mem).1.irqEnable = true ∧
    (r + (d.refillBufferIfNeeded mem).2) + (d.refillBufferIfNeeded mem).1.bytesRemaining = L ∧
    ((d.refillBufferIfNeeded mem).1.irq = true ↔
      (d.refillBufferIfNeeded mem).1.bytesRemaining = 0) := by
  unfold DMC.refillBufferIfNeeded
  split_ifs with h1
  · simpa using ⟨hloop, hirqE, hsum, hirq⟩
  · push_neg at h1
    obtain ⟨hemp, hb⟩ := h1
    simp only [hloop, Bool.false_eq_true, and_false, if_false]
    by_cases hb0 : d.bytesRemaining - 1 = 0 <;> simp_all <;> omega

theorem DMC.clock_inv (mem : ℕ → ℕ) (d : DMC) (L r : ℕ)
    (hloop : d.loop = false) (hirqE : d.irqEnable = true)
    (hsum : r + d.bytesRemaining = L)
    (hirq : d.irq = true ↔ d.bytesRemaining = 0) :
    (d.clock mem).1.loop = false ∧
    (d.clock mem).1.irqEnable = true ∧
    (r + (d.clock mem).2) + (d.clock mem).1.bytesRemaining = L ∧
    ((d.clock mem).1.irq = true ↔ (d.clock mem).1.bytesRemaining = 0) := by
  obtain ⟨i1, i2, i3, i4⟩ := DMC.refill_inv mem d L r hloop hirqE hsum hirq
  unfold DMC.clock
  dsimp only
  by_cases h1 : (d.refillBufferIfNeeded mem).1.timerCnt = 0
  · rw [if_pos h1]
    by_cases h2 : (d.refillBufferIfNeeded mem).1.bitsRemaining = 0
    · rw [if_pos h2]
      by_cases h3 : (d.refillBufferIfNeeded mem).1.sampleBufferEmpty = true
      · rw [if_neg (by simp [h3])]
        exact ⟨i1, i2, i3, i4⟩
      · rw [if_pos (by simp [h3])]
        obtain ⟨j1, j2, j3, j4⟩ :=
          DMC.refill_inv mem
            { (d.refillBufferIfNeeded mem).1 with
                timerCnt := (d.refillBufferIfNeeded mem).1.timer,
                sampleBufferEmpty := true,
                shiftReg := (d.refillBufferIfNeeded mem).1.sampleBuffer,
                bitsRemaining := 8 }
            L (r + (d.refillBufferIfNeeded mem).2) i1 i2 i3 i4
        refine ⟨j1, j2, ?_, j4⟩
        dsimp only at j3 ⊢
        omega
    · rw [if_neg h2]
      dsimp only
      split_ifs <;> exact ⟨i1, i2, i3, i4⟩
  · rw [if_neg h1]
    exact ⟨i1, i2, i3, i4⟩

theorem DMC.clockN_inv (mem : ℕ → ℕ) (n : ℕ) (d : DMC) (L r : ℕ)
    (hloop : d.loop = false) (hirqE : d.irqEnable = true)
    (hsum : r + d.bytesRemaining = L)
    (hirq : d.irq = true ↔ d.bytesRemaining = 0) :
    (DMC.clockN mem n d).1.loop = false ∧
    (DMC.clockN mem n d).1.irqEnable = true ∧
    (r + (DMC.clockN mem n d).2) + (DMC.clockN mem n d).1.bytesRemaining = L ∧
    ((DMC.clockN mem n d).1.irq = true ↔ (DMC.clockN mem n d).1.bytesRemaining = 0) := by
  induction n generalizing d r with
  | zero => simpa using ⟨hloop, hirqE, hsum, hirq⟩
  | succ k ih =>
    obtain ⟨c1, c2, c3, c4⟩ := DMC.clock_inv mem d L r hloop hirqE hsum hirq
    obtain ⟨k1, k2, k3, k4⟩ := ih (d.clock mem).1 (r + (d.clock mem).2) c1 c2 c3 c4
    refine ⟨?_, ?_, ?_, ?_⟩ <;> simp only [DMC.clockN]
    · exact k1
    · exact k2
    · omega
    · exact k4

/-- Claim C5 is false on the code in one respect: disabling the DMC
channel through the $4015 enable mask zeroes `bytesRemaining` directly,
without exhausting the programmed length.  Here a channel programmed with
a 17-byte sample and IRQ enabled is disabled: `bytesRemaining` becomes 0
with no DMA read having occurred, no reload (17 bytes were pending) and
no IRQ. -/
theorem C5_dmc_counterexample :
    dmcC5.bytesRemaining = 17 ∧ dmcC5.irqEnable = true ∧ dmcC5.loop = false ∧
    dmcC5.irq = false ∧
    (dmcC5.setEnabled false).bytesRemaining = 0 ∧
    (dmcC5.setEnabled false).irq = false := by
  refine ⟨by decide, by decide, by decide, by decide, by decide, by decide⟩

/-- Claim C5, amended: while the channel is driven only by its clock (no
$4015 disable), a programmed sample length of L bytes gives exactly L
`cpuRead` invocations up to the moment `bytesRemaining` reaches 0 (the
read count plus the bytes still pending is always L); with `loop` clear
and `irqEnable` set the sticky IRQ flag is true exactly when the bytes
are exhausted; the final fetch either reloads `currentAddr` and
`bytesRemaining` from the programmed start/length (loop set, IRQ flag
untouched) or raises the IRQ flag (irqEnable set, loop clear) — never
both; a $4015 read clears the sticky flag; and — the amendment —
disabling the channel also zeroes `bytesRemaining`, clearing the IRQ
flag, without reload or IRQ. -/
theorem C5_dmc_sample_playback (mem : ℕ → ℕ) (d0 : DMC) (L n : ℕ)
    (hL : 1 ≤ L) (hb : d0.bytesRemaining = L) (hloop : d0.loop = false)
    (hirqE : d0.irqEnable = true) (hirq : d0.irq = false) :
    ((DMC.clockN mem n d0).2 + (DMC.clockN mem n d0).1.bytesRemaining = L) ∧
    ((DMC.clockN mem n d0).1.bytesRemaining = 0 → (DMC.clockN mem n d0).2 = L) ∧
    ((DMC.clockN mem n d0).1.irq = true ↔ (DMC.clockN mem n d0).1.bytesRemaining = 0) ∧
    (∀ d : DMC, d.sampleBufferEmpty = true → d.bytesRemaining = 1 →
      ((d.loop = true →
        (d.refillBufferIfNeeded mem).1.bytesRemaining = d.sampleLen0 ∧
        (d.refillBufferIfNeeded mem).1.currentAddr = d.sampleAddr0 ∧
        (d.refillBufferIfNeeded mem).1.irq = d.irq) ∧
       (d.loop = false →
        (d.refillBufferIfNeeded mem).1.bytesRemaining = 0 ∧
        (d.refillBufferIfNeeded mem).1.currentAddr = (d.currentAddr + 1) &&& 0xFFFF ∧
        (d.refillBufferIfNeeded mem).1.irq = (d.irqEnable || d.irq)))) ∧
    (∀ a : APU, (a.read 0x4015).2.dmc.irq = false ∧ (a.read 0x4015).2.frameIRQ = false) ∧
    (∀ d : DMC, (d.setEnabled false).bytesRemaining = 0 ∧ (d.setEnabled false).irq = false) := by
  have hiff : d0.irq = true ↔ d0.bytesRemaining = 0 := by
    rw [hirq, hb]
    constructor
    · intro h; exact absurd h (by simp)
    · intro h; omega
  have hko := DMC.clockN_inv mem n d0 L 0 hloop hirqE (by simpa using hb) hiff
  obtain ⟨k1, k2, k3, k4⟩ := hko
  refine ⟨by omega, fun h0 => by omega, k4, ?_, ?_, ?_⟩
  · intro d hse hb1
    constructor
    · intro hl
      unfold DMC.refillBufferIfNeeded
      rw [if_neg (by simp [hse, hb1])]
      simp [hb1, hl]
    · intro hl
      unfold DMC.refillBufferIfNeeded
      rw [if_neg (by simp [hse, hb1])]
      by_cases hie : d.irqEnable <;> simp [hb1, hl, hie]
  · intro a
    constructor <;> simp [APU.read]
  · intro d
    constructor <;> simp [DMC.setEnabled]

theorem C5_dmc_sample_playback_witness :
    ((DMC.clockN memZero 40 dmcC5).2 + (DMC.clockN memZero 40 dmcC5).1.bytesRemaining
      = 17) ∧
    ((({ DMC.init with bytesRemaining := 1, irqEnable := true } :
        DMC).refillBufferIfNeeded memZero).1.irq = true) ∧
    ((DMC.init.setEnabled false).bytesRemaining = 0) := by
  have h := C5_dmc_sample_playback memZero dmcC5 17 40 (by norm_num) (by decide)
    (by decide) (by decide) (by decide)
  refine ⟨h.1, ?_, (h.2.2.2.2.2 DMC.init).1⟩
  have h4 := (h.2.2.2.1 { DMC.init with bytesRemaining := 1, irqEnable := true }
    (by decide) (by decide)).2 (by decide)
  rw [h4.2.2]
  decide

theorem clamp01_mem (v : ℚ) : 0 ≤ clamp01 v ∧ clamp01 v ≤ 1 := by
  unfold clamp01
  split_ifs <;> constructor <;> linarith

/-- Claim C9: for all channel outputs in their valid ranges (pulses,
triangle, noise in [0,15]; DMC in [0,127]) and any master volume set
through `setVolume` (which clamps to [0,1]), the non-linear mixer output
`(pulseTerm + tndTerm) * master * 2 - 1` lies within [-1, 1].  (JS double
arithmetic is modelled exactly over ℚ; the bound is the exact statement
`pulseMax + tndMax ≤ 1` for the formulas' extreme point, which holds with
margin ≈ 6.5e-7.) -/
theorem C9_mixer_output_range (p1 p2 tri noi dmc : ℕ) (v : ℚ)
    (h1 : p1 ≤ 15) (h2 : p2 ≤ 15) (h3 : tri ≤ 15) (h4 : noi ≤ 15) (h5 : dmc ≤ 127) :
    -1 ≤ mixFormula p1 p2 tri noi dmc ((APU.init.setVolume v).master) ∧
    mixFormula p1 p2 tri noi dmc ((APU.init.setVolume v).master) ≤ 1 := by
  have hm : (APU.init.setVolume v).master = clamp01 v := rfl
  obtain ⟨hm0, hm1⟩ := clamp01_mem v
  rw [hm]
  unfold mixFormula
  dsimp only
  set m := clamp01 v
  set P : ℚ := if p1 ≠ 0 ∨ p2 ≠ 0 then (95.88 : ℚ) / (8128 / ((p1 : ℚ) + (p2 : ℚ)) + 100) else 0 with hP
  set T : ℚ := (tri : ℚ) / 8227 + (noi : ℚ) / 12241 + (dmc : ℚ) / 22638 with hT
  set TT : ℚ := if T ≠ 0 then (159.79 : ℚ) / (1 / T + 100) else 0 with hTT
  have hPb : 0 ≤ P ∧ P ≤ (95.88 : ℚ) / (8128 / 30 + 100) := by
    rw [hP]
    split_ifs with h
    · have hp1 : (p1 : ℚ) ≤ 15 := by exact_mod_cast h1
      have hp2 : (p2 : ℚ) ≤ 15 := by exact_mod_cast h2
      have hs1 : (1 : ℚ) ≤ (p1 : ℚ) + p2 := by
        rcases h with h | h
        · have ha : (1 : ℚ) ≤ p1 := by exact_mod_cast Nat.one_le_iff_ne_zero.2 h
          have hb : (0 : ℚ) ≤ p2 := by positivity
          linarith
        · have ha : (1 : ℚ) ≤ p2 := by exact_mod_cast Nat.one_le_iff_ne_zero.2 h
          have hb : (0 : ℚ) ≤ p1 := by positivity
          linarith
      have hspos : (0 : ℚ) < (p1 : ℚ) + p2 := by linarith
      refine ⟨by positivity, ?_⟩
      gcongr
      linarith
    · exact ⟨le_refl 0, by norm_num⟩
  have hT0 : 0 ≤ T := by rw [hT]; positivity
  have hTM : T ≤ 15 / 8227 + 15 / 12241 + 127 / 22638 := by
    rw [hT]
    gcongr
    · exact_mod_cast h3
    · exact_mod_cast h4
    · exact_mod_cast h5
  have hTb : 0 ≤ TT ∧
      TT ≤ (159.79 : ℚ) / (1 / (15 / 8227 + 15 / 12241 + 127 / 22638) + 100) := by
    rw [hTT]
    split_ifs with h
    · have hTpos : 0 < T := lt_of_le_of_ne hT0 (Ne.symm h)
      refine ⟨by positivity, ?_⟩
      gcongr
    · exact ⟨le_refl 0, by norm_num⟩
  have hend : (95.88 : ℚ) / (8128 / 30 + 100) +
      (159.79 : ℚ) / (1 / (15 / 8227 + 15 / 12241 + 127 / 22638) + 100) ≤ 1 := by
    norm_num
  have hS0 : 0 ≤ P + TT := add_nonneg hPb.1 hTb.1
  have hS1 : P + TT ≤ 1 := by linarith [hPb.2, hTb.2]
  have hM0 : 0 ≤ (P + TT) * m := mul_nonneg hS0 hm0
  have hM1 : (P + TT) * m ≤ 1 := by nlinarith
  constructor <;> linarith

theorem C9_mixer_output_range_witness :
    -1 ≤ mixFormula 15 15 15 15 127 ((APU.init.setVolume 2).master) ∧
    mixFormula 15 15 15 15 127 ((APU.init.setVolume 2).master) ≤ 1 :=
  C9_mixer_output_range 15 15 15 15 127 2 (by norm_num) (by norm_num) (by norm_num)
    (by norm_num) (by norm_num)

theorem APU.sampleUpdate_seqFields (a : APU) :
    (a.sampleUpdate).seqTime = a.seqTime ∧
    (a.sampleUpdate).phase = a.phase ∧
    (a.sampleUpdate).frameIRQ = a.frameIRQ ∧
    (a.sampleUpdate).quarters = a.quarters ∧
    (a.sampleUpdate).halves = a.halves ∧
    (a.sampleUpdate).mode5 = a.mode5 ∧
    (a.sampleUpdate).irqInhibit = a.irqInhibit := by
  unfold APU.sampleUpdate
  dsimp only
  split_ifs <;> exact ⟨rfl, rfl, rfl, rfl, rfl, rfl, rfl⟩

theorem APU.seqUpdate_noTick (a : APU) (p : ℕ) (hp : a.phase = p) (hp3 : p ≤ 3)
    (hb : ¬(qPeriod * (p + 1) ≤ a.seqTime + 1)) :
    a.seqUpdate = { a with seqTime := a.seqTime + 1 } := by
  unfold APU.seqUpdate
  dsimp only
  interval_cases p <;> norm_num at hb <;> simp [hp, not_le.2 hb]

theorem APU.seqUpdate_tick0 (a : APU) (hp : a.phase = 0)
    (hge : qPeriod ≤ a.seqTime + 1) (hlt : a.seqTime + 1 < qPeriod * 2) :
    a.seqUpdate = { APU.clockQuarter { a with seqTime := a.seqTime + 1 } with phase := 1 } := by
  unfold APU.seqUpdate
  dsimp only
  simp [hp, hge, not_le.2 hlt, APU.clockQuarter]

theorem APU.seqUpdate_tick1 (a : APU) (hp : a.phase = 1)
    (hge : qPeriod * 2 ≤ a.seqTime + 1) (hlt : a.seqTime + 1 < qPeriod * 3) :
    a.seqUpdate =
      { APU.clockQuarterHalf { a with seqTime := a.seqTime + 1 } with phase := 2 } := by
  unfold APU.seqUpdate
  dsimp only
  simp [hp, hge, not_le.2 hlt, APU.clockQuarterHalf, APU.clockQuarter]

theorem APU.seqUpdate_tick2 (a : APU) (hp : a.phase = 2)
    (hge : qPeriod * 3 ≤ a.seqTime + 1) (hlt : a.seqTime + 1 < qPeriod * 4) :
    a.seqUpdate = { APU.clockQuarter { a with seqTime := a.seqTime + 1 } with phase := 3 } := by
  unfold APU.seqUpdate
  dsimp only
  simp [hp, hge, not_le.2 hlt, APU.clockQuarter]

theorem APU.seqUpdate_tick3 (a : APU) (hp : a.phase = 3) (hm : a.mode5 = false)
    (hge : qPeriod * 4 ≤ a.seqTime + 1) :
    (a.seqUpdate).seqTime = a.seqTime + 1 - qPeriod * 4 ∧
    (a.seqUpdate).phase = 0 ∧
    (a.seqUpdate).frameIRQ = (a.frameIRQ || !a.irqInhibit) ∧
    (a.seqUpdate).quarters = a.quarters + 1 ∧
    (a.seqUpdate).halves = a.halves + 1 ∧
    (a.seqUpdate).mode5 = a.mode5 ∧
    (a.seqUpdate).irqInhibit = a.irqInhibit := by
  unfold APU.seqUpdate
  dsimp only
  by_cases hi : a.irqInhibit <;>
    simp [hp, hm, hge, hi, APU.clockQuarterHalf, APU.clockQuarter]

theorem APU.stepCycle_noTick (mem : ℕ → ℕ) (a : APU) (p : ℕ) (hp : a.phase = p)
    (hp3 : p ≤ 3) (hb : ¬(qPeriod * (p + 1) ≤ a.seqTime + 1)) :
    (a.stepCycle mem).seqTime = a.seqTime + 1 ∧
    (a.stepCycle mem).phase = p ∧
    (a.stepCycle mem).frameIRQ = a.frameIRQ ∧
    (a.stepCycle mem).quarters = a.quarters ∧
    (a.stepCycle mem).halves = a.halves ∧
    (a.stepCycle mem).mode5 = a.mode5 ∧
    (a.stepCycle mem).irqInhibit = a.irqInhibit := by
  have hs := APU.seqUpdate_noTick (a.clockChannels mem) p hp hp3 hb
  unfold APU.stepCycle
  rw [hs]
  obtain ⟨s1, s2, s3, s4, s5, s6, s7⟩ :=
    APU.sampleUpdate_seqFields
      { a.clockChannels mem with seqTime := (a.clockChannels mem).seqTime + 1 }
  exact ⟨s1, s2.trans hp, s3, s4, s5, s6, s7⟩

theorem APU.stepCycle_tick0 (mem : ℕ → ℕ) (a : APU) (hp : a.phase = 0)
    (hge : qPeriod ≤ a.seqTime + 1) (hlt : a.seqTime + 1 < qPeriod * 2) :
    (a.stepCycle mem).seqTime = a.seqTime + 1 ∧
    (a.stepCycle mem).phase = 1 ∧
    (a.stepCycle mem).frameIRQ = a.frameIRQ ∧
    (a.stepCycle mem).quarters = a.quarters + 1 ∧
    (a.stepCycle mem).halves = a.halves ∧
    (a.stepCycle mem).mode5 = a.mode5 ∧
    (a.stepCycle mem).irqInhibit = a.irqInhibit := by
  have hs := APU.seqUpdate_tick0 (a.clockChannels mem) hp hge hlt
  unfold APU.stepCycle
  rw [hs]
  obtain ⟨s1, s2, s3, s4, s5, s6, s7⟩ :=
    APU.sampleUpdate_seqFields
      { APU.clockQuarter
          { a.clockChannels mem with seqTime := (a.clockChannels mem).seqTime + 1 } with
        phase := 1 }
  exact ⟨s1, s2, s3, s4, s5, s6, s7⟩

theorem APU.stepCycle_tick1 (mem : ℕ → ℕ) (a : APU) (hp : a.phase = 1)
    (hge : qPeriod * 2 ≤ a.seqTime + 1) (hlt : a.seqTime + 1 < qPeriod * 3) :
    (a.stepCycle mem).seqTime = a.seqTime + 1 ∧
    (a.stepCycle mem).phase = 2 ∧
    (a.stepCycle mem).frameIRQ = a.frameIRQ ∧
    (a.stepCycle mem).quarters = a.quarters + 1 ∧
    (a.stepCycle mem).halves = a.halves + 1 ∧
    (a.stepCycle mem).mode5 = a.mode5 ∧
    (a.stepCycle mem).irqInhibit = a.irqInhibit := by
  have hs := APU.seqUpdate_tick1 (a.clockChannels mem) hp hge hlt
  unfold APU.stepCycle
  rw [hs]
  obtain ⟨s1, s2, s3, s4, s5, s6, s7⟩ :=
    APU.sampleUpdate_seqFields
      { APU.clockQuarterHalf
          { a.clockChannels mem with seqTime := (a.clockChannels mem).seqTime + 1 } with
        phase := 2 }
  exact ⟨s1, s2, s3, s4, s5, s6, s7⟩

theorem APU.stepCycle_tick2 (mem : ℕ → ℕ) (a : APU) (hp : a.phase = 2)
    (hge : qPeriod * 3 ≤ a.seqTime + 1) (hlt : a.seqTime + 1 < qPeriod * 4) :
    (a.stepCycle mem).seqTime = a.seqTime + 1 ∧
    (a.stepCycle mem).phase = 3 ∧
    (a.stepCycle mem).frameIRQ = a.frameIRQ ∧
    (a.stepCycle mem).quarters = a.quarters + 1 ∧
    (a.stepCycle mem).halves = a.halves ∧
    (a.stepCycle mem).mode5 = a.mode5 ∧
    (a.stepCycle mem).irqInhibit = a.irqInhibit := by
  have hs := APU.seqUpdate_tick2 (a.clockChannels mem) hp hge hlt
  unfold APU.stepCycle
  rw [hs]
  obtain ⟨s1, s2, s3, s4, s5, s6, s7⟩ :=
    APU.sampleUpdate_seqFields
      { APU.clockQuarter
          { a.clockChannels mem with seqTime := (a.clockChannels mem).seqTime + 1 } with
        phase := 3 }
  exact ⟨s1, s2, s3, s4, s5, s6, s7⟩

theorem APU.stepCycle_tick3 (mem : ℕ → ℕ) (a : APU) (hp : a.phase = 3)
    (hm : a.mode5 = false) (hge : qPeriod * 4 ≤ a.seqTime + 1) :
    (a.stepCycle mem).seqTime = a.seqTime + 1 - qPeriod * 4 ∧
    (a.stepCycle mem).phase = 0 ∧
    (a.stepCycle mem).frameIRQ = (a.frameIRQ || !a.irqInhibit) ∧
    (a.stepCycle mem).quarters = a.quarters + 1 ∧
    (a.stepCycle mem).halves = a.halves + 1 ∧
    (a.stepCycle mem).mode5 = a.mode5 ∧
    (a.stepCycle mem).irqInhibit = a.irqInhibit := by
  obtain ⟨t1, t2, t3, t4, t5, t6, t7⟩ :=
    APU.seqUpdate_tick3 (a.clockChannels mem) hp hm hge
  unfold APU.stepCycle
  obtain ⟨s1, s2, s3, s4, s5, s6, s7⟩ :=
    APU.sampleUpdate_seqFields ((a.clockChannels mem).seqUpdate)
  exact ⟨s1.trans t1, s2.trans t2, s3.trans t3, s4.trans t4, s5.trans t5,
    s6.trans t6, s7.trans t7⟩

theorem APU.run_noTick (mem : ℕ → ℕ) (p : ℕ) (hp3 : p ≤ 3) (m : ℕ) :
    ∀ (a : APU), a.phase = p → ¬(qPeriod * (p + 1) ≤ a.seqTime + (m : ℚ)) →
    ((APU.stepCycle mem)^[m] a).seqTime = a.seqTime + (m : ℚ) ∧
    ((APU.stepCycle mem)^[m] a).phase = p ∧
    ((APU.stepCycle mem)^[m] a).frameIRQ = a.frameIRQ ∧
    ((APU.stepCycle mem)^[m] a).quarters = a.quarters ∧
    ((APU.stepCycle mem)^[m] a).halves = a.halves ∧
    ((APU.stepCycle mem)^[m] a).mode5 = a.mode5 ∧
    ((APU.stepCycle mem)^[m] a).irqInhibit = a.irqInhibit := by
  induction m with
  | zero =>
    intro a hp _
    simp [hp]
  | succ k ih =>
    intro a hp hb
    push_cast at hb
    have hb1 : ¬(qPeriod * (p + 1) ≤ a.seqTime + 1) := by
      intro hc
      apply hb
      have : (0 : ℚ) ≤ k := by positivity
      linarith
    obtain ⟨t1, t2, t3, t4, t5, t6, t7⟩ := APU.stepCycle_noTick mem a p hp hp3 hb1
    rw [Function.iterate_succ_apply]
    obtain ⟨s1, s2, s3, s4, s5, s6, s7⟩ := ih (a.stepCycle mem) t2 (by
      rw [t1]
      intro hc
      apply hb
      push_cast
      linarith)
    refine ⟨?_, s2, s3.trans t3, s4.trans t4, s5.trans t5, s6.trans t6, s7.trans t7⟩
    rw [s1, t1]
    push_cast
    ring

/-- Claim C7: in 4-step mode, over one full sequence period starting at a
period start (phase 0, fractional accumulator in [0,1) — reset has
seqTime 0, and each wrap leaves the fractional remainder, so every period
start satisfies this), exactly four quarter-frame ticks and exactly two
half-frame ticks are delivered to the channels before the sequence wraps;
at the wrap the sticky frameIRQ flag becomes true iff irqInhibit was
false throughout (no $4017 writes during the run); and the accumulator is
decremented by the full period `qPeriod * 4`, preserving the fractional
remainder.  The hypotheses on n1..n4 say each is the first cycle count at
which the accumulator reaches the 1x,2x,3x,4x quarter-period boundary;
the run is n4 cycles, one full period. -/
theorem C7_frame_sequencer_4step (mem : ℕ → ℕ) (a : APU) (n1 n2 n3 n4 : ℕ)
    (hph : a.phase = 0) (hm : a.mode5 = false) (hf : a.frameIRQ = false)
    (hr0 : 0 ≤ a.seqTime) (hr1 : a.seqTime < 1)
    (hb1 : qPeriod ≤ a.seqTime + n1) (hb1' : a.seqTime + n1 < qPeriod + 1)
    (hb2 : qPeriod * 2 ≤ a.seqTime + n2) (hb2' : a.seqTime + n2 < qPeriod * 2 + 1)
    (hb3 : qPeriod * 3 ≤ a.seqTime + n3) (hb3' : a.seqTime + n3 < qPeriod * 3 + 1)
    (hb4 : qPeriod * 4 ≤ a.seqTime + n4) (hb4' : a.seqTime + n4 < qPeriod * 4 + 1) :
    (APU.step mem n4 a).quarters = a.quarters + 4 ∧
    (APU.step mem n4 a).halves = a.halves + 2 ∧
    (APU.step mem n4 a).frameIRQ = !a.irqInhibit ∧
    (APU.step mem n4 a).seqTime = a.seqTime + n4 - qPeriod * 4 ∧
    (APU.step mem n4 a).phase = 0 := by
  have hqlo : (7457 : ℚ) < qPeriod := by norm_num [qPeriod, NTSC_CPU_HZ]
  have hqhi : qPeriod < 7458 := by norm_num [qPeriod, NTSC_CPU_HZ]
  have hn1 : 1 ≤ n1 := by
    have : (1 : ℚ) ≤ (n1 : ℚ) := by linarith
    exact_mod_cast this
  have hn12 : n1 < n2 := by
    have : (n1 : ℚ) < (n2 : ℚ) := by linarith
    exact_mod_cast this
  have hn23 : n2 < n3 := by
    have : (n2 : ℚ) < (n3 : ℚ) := by linarith
    exact_mod_cast this
  have hn34 : n3 < n4 := by
    have : (n3 : ℚ) < (n4 : ℚ) := by linarith
    exact_mod_cast this
  have hsum : n4 = 1 + ((n4 - n3 - 1) + (1 + ((n3 - n2 - 1) + (1 + ((n2 - n1 - 1) + (1 + (n1 - 1))))))) := by
    omega
  have hc1 : ((n1 - 1 : ℕ) : ℚ) = (n1 : ℚ) - 1 := by
    push_cast [Nat.cast_sub hn1]
    ring
  have hc2 : ((n2 - n1 - 1 : ℕ) : ℚ) = (n2 : ℚ) - n1 - 1 := by
    have h : 1 ≤ n2 - n1 := by omega
    rw [Nat.cast_sub h, Nat.cast_sub (le_of_lt hn12)]
    norm_num
  have hc3 : ((n3 - n2 - 1 : ℕ) : ℚ) = (n3 : ℚ) - n2 - 1 := by
    have h : 1 ≤ n3 - n2 := by omega
    rw [Nat.cast_sub h, Nat.cast_sub (le_of_lt hn23)]
    norm_num
  have hc4 : ((n4 - n3 - 1 : ℕ) : ℚ) = (n4 : ℚ) - n3 - 1 := by
    have h : 1 ≤ n4 - n3 := by omega
    rw [Nat.cast_sub h, Nat.cast_sub (le_of_lt hn34)]
    norm_num
  unfold APU.step
  rw [hsum]
  simp only [Function.iterate_add_apply, Function.iterate_one]
  -- Segment 1: n1 - 1 silent cycles at phase 0
  obtain ⟨A1s, A1p, A1f, A1q, A1h, A1m, A1i⟩ :=
    APU.run_noTick mem 0 (by norm_num) (n1 - 1) a hph (by
      rw [hc1]
      push_cast
      intro hc
      linarith)
  -- Tick at phase 0 (cycle n1)
  obtain ⟨B1s, B1p, B1f, B1q, B1h, B1m, B1i⟩ :=
    APU.stepCycle_tick0 mem _ A1p
      (by rw [A1s, hc1]; linarith)
      (by rw [A1s, hc1]; linarith)
  rw [A1s, hc1] at B1s
  -- Segment 2
  obtain ⟨A2s, A2p, A2f, A2q, A2h, A2m, A2i⟩ :=
    APU.run_noTick mem 1 (by norm_num) (n2 - n1 - 1) _ B1p (by
      rw [B1s, hc2]
      push_cast
      intro hc
      linarith)
  rw [B1s, hc2] at A2s
  -- Tick at phase 1 (cycle n2)
  obtain ⟨B2s, B2p, B2f, B2q, B2h, B2m, B2i⟩ :=
    APU.stepCycle_tick1 mem _ A2p
      (by rw [A2s]; push_cast; linarith)
      (by rw [A2s]; push_cast; linarith)
  rw [A2s] at B2s
  -- Segment 3
  obtain ⟨A3s, A3p, A3f, A3q, A3h, A3m, A3i⟩ :=
    APU.run_noTick mem 2 (by norm_num) (n3 - n2 - 1) _ B2p (by
      rw [B2s, hc3]
      push_cast
      intro hc
      linarith)
  rw [B2s, hc3] at A3s
  -- Tick at phase 2 (cycle n3)
  obtain ⟨B3s, B3p, B3f, B3q, B3h, B3m, B3i⟩ :=
    APU.stepCycle_tick2 mem _ A3p
      (by rw [A3s]; push_cast; linarith)
      (by rw [A3s]; push_cast; linarith)
  rw [A3s] at B3s
  -- Segment 4
  obtain ⟨A4s, A4p, A4f, A4q, A4h, A4m, A4i⟩ :=
    APU.run_noTick mem 3 (by norm_num) (n4 - n3 - 1) _ B3p (by
      rw [B3s, hc4]
      push_cast
      intro hc
      linarith)
  rw [B3s, hc4] at A4s
  -- Wrap tick at phase 3 (cycle n4)
  have hmode : ((APU.stepCycle mem)^[n4 - n3 - 1] _).mode5 = false :=
    A4m.trans (B3m.trans (A3m.trans (B2m.trans (A2m.trans (B1m.trans (A1m.trans hm))))))
  obtain ⟨B4s, B4p, B4f, B4q, B4h, B4m, B4i⟩ :=
    APU.stepCycle_tick3 mem _ A4p hmode
      (by rw [A4s]; push_cast; linarith)
  rw [A4s] at B4s
  refine ⟨?_, ?_, ?_, ?_, B4p⟩
  · rw [B4q, A4q, B3q, A3q, B2q, A2q, B1q, A1q]
  · rw [B4h, A4h, B3h, A3h, B2h, A2h, B1h, A1h]
  · rw [B4f, A4f, B3f, A3f, B2f, A2f, B1f, A1f, hf,
        A4i.trans (B3i.trans (A3i.trans (B2i.trans (A2i.trans (B1i.trans A1i)))))]
    simp
  · rw [B4s, ← hsum]
    ring

theorem C7_frame_sequencer_4step_witness :
    (APU.step memZero 29830 { APU.init with irqInhibit := false }).quarters = 4 ∧
    (APU.step memZero 29830 { APU.init with irqInhibit := false }).halves = 2 ∧
    (APU.step memZero 29830 { APU.init with irqInhibit := false }).frameIRQ = true ∧
    (APU.step memZero 29830 { APU.init with irqInhibit := false }).seqTime = 9 / 20 ∧
    (APU.step memZero 29830 { APU.init with irqInhibit := false }).phase = 0 := by
  have h := C7_frame_sequencer_4step memZero { APU.init with irqInhibit := false }
      7458 14915 22373 29830 rfl rfl rfl (by norm_num [APU.init]) (by norm_num [APU.init])
      (by norm_num [APU.init, qPeriod, NTSC_CPU_HZ])
      (by norm_num [APU.init, qPeriod, NTSC_CPU_HZ])
      (by norm_num [APU.init, qPeriod, NTSC_CPU_HZ])
      (by norm_num [APU.init, qPeriod, NTSC_CPU_HZ])
      (by norm_num [APU.init, qPeriod, NTSC_CPU_HZ])
      (by norm_num [APU.init, qPeriod, NTSC_CPU_HZ])
      (by norm_num [APU.init, qPeriod, NTSC_CPU_HZ])
      (by norm_num [APU.init, qPeriod, NTSC_CPU_HZ])
  refine ⟨h.1, h.2.1, ?_, ?_, h.2.2.2.2⟩
  · rw [h.2.2.1]
    decide
  · rw [h.2.2.2.1]
    norm_num [APU.init, qPeriod, NTSC_CPU_HZ]
